import Mathlib

/-!
Verification development for the GitHub secrets synchronization route
(`src/app/api/github-secrets/route.ts`).

The TypeScript source is shallowly embedded below:
* `parseEnvContent` — line-oriented `.env` parser (pure function in the source);
* `getPublicKey` — repository→organization public-key discovery, with the two
  outbound HTTP responses passed in as data;
* `buildSecretRequest` / `setSecret` — construction of the PUT request for one
  secret and the structured outcome derived from the transport's answer
  (transport and encryption are passed in as oracles, `Except` models `throw`);
* `processSecrets` — the per-key loop of the `POST` handler with its local
  `try/catch`;
* `POST` — the handler's control flow after form validation, paired with a
  trace recording which effects were reached.
-/

namespace GithubSecrets

/-- Quote and escape characters, written via code points to keep the
embedding readable: 34 = double quote, 39 = single quote, 92 = backslash,
10 = newline. -/
def dquote : Char := Char.ofNat 34

def squote : Char := Char.ofNat 39

def backslash : Char := Char.ofNat 92

def newlineChar : Char := Char.ofNat 10

/-- JS `s.startsWith(p)`. -/
def jsStartsWith (s p : String) : Bool := p.data.isPrefixOf s.data

/-- JS `s.endsWith(p)`. -/
def jsEndsWith (s p : String) : Bool := p.data.isSuffixOf s.data

/-- JS `s.trim()` (ASCII whitespace; the inputs at issue are ASCII). -/
def jsTrim (s : String) : String :=
  ⟨((s.data.dropWhile Char.isWhitespace).reverse.dropWhile Char.isWhitespace).reverse⟩

/-- JS `s.substring(n)`. -/
def jsDrop (s : String) (n : Nat) : String := ⟨s.data.drop n⟩

/-- JS `s.slice(0, -1)`. -/
def jsDropLast (s : String) : String := ⟨s.data.dropLast⟩

/-- JS `envContent.split('\n')`. -/
def splitLines (s : String) : List String := (s.data.splitOn newlineChar).map String.mk

/-- Character class `[A-Za-z0-9_]` of the key regex. -/
def isWordChar (c : Char) : Bool := c.isAlphanum || c == '_'

/-- `line.match(/^([A-Za-z0-9_]+)=(.*)/)`: a non-empty maximal run of word
characters followed by `=`; the value is the rest of the line. -/
def matchKeyValue (line : String) : Option (String × String) :=
  let key := line.data.takeWhile isWordChar
  if key.isEmpty then none
  else
    match line.data.dropWhile isWordChar with
    | '=' :: v => some (⟨key⟩, ⟨v⟩)
    | _ => none

/-- One of `"` or `'`, the character class of `/^["'](.*)["']$/`. -/
def isQuoteChar (c : Char) : Bool := c == dquote || c == squote

/-- `value.replace(/^["'](.*)["']$/, '$1')`: when the value is at least two
characters long and both its first and last characters are quote characters
(independently `"` or `'`), both are stripped; otherwise the value is kept. -/
def stripQuotePair (v : String) : String :=
  if decide (2 ≤ v.data.length) && isQuoteChar (v.data.headD ' ') &&
      isQuoteChar (v.data.getLastD ' ') then
    ⟨(v.data.drop 1).dropLast⟩
  else v

/-- JS object assignment `result[key] = value` on a `Record<string, string>`:
an existing key keeps its position and gets the new value, a new key is
appended. -/
def recordSet (m : List (String × String)) (k v : String) : List (String × String) :=
  if m.any (fun p => p.1 == k) then
    m.map (fun p => if p.1 == k then (p.1, v) else p)
  else m ++ [(k, v)]

/-- The mutable locals of `parseEnvContent`'s loop, plus the accumulated
`result` record. -/
structure ParseState where
  result : List (String × String)
  currentKey : String
  inValue : Bool
  value : String
deriving DecidableEq, Repr

def initParseState : ParseState := ⟨[], "", false, ""⟩

/-- One iteration of the `for` loop of `parseEnvContent` on a raw line. -/
def parseLine (st : ParseState) (rawLine : String) : ParseState :=
  let line := jsTrim rawLine
  if line.isEmpty || jsStartsWith line "#" then st
  else if !st.inValue then
    match matchKeyValue line with
    | some (key, v) =>
      if jsStartsWith v "\"" && !jsEndsWith v "\"" && !jsEndsWith v "\\\"" then
        { st with currentKey := key, inValue := true, value := jsDrop v 1 }
      else
        { st with result := recordSet st.result key (stripQuotePair v),
                  currentKey := "", value := "" }
    | none => st
  else
    if jsEndsWith line "\"" && !jsEndsWith line "\\\"" then
      { st with result := recordSet st.result st.currentKey
                  (st.value ++ "\n" ++ jsDropLast line),
                currentKey := "", inValue := false, value := "" }
    else
      { st with value := st.value ++ "\n" ++ line }

/-- `parseEnvContent(envContent)`: fold the loop body over the split lines,
then the trailing `if (inValue && currentKey)` recovery commit. -/
def parseEnvContent (envContent : String) : List (String × String) :=
  let st := (splitLines envContent).foldl parseLine initParseState
  if st.inValue && !st.currentKey.isEmpty then recordSet st.result st.currentKey st.value
  else st.result

/-- One of the two GET responses consumed by `getPublicKey`, with the JSON
body already decoded: `key` and `keyId` are the body's `key` / `key_id`
fields (`none` when the body lacks them, e.g. an error body). -/
structure KeyFetchResp where
  status : Nat
  key : Option String
  keyId : Option String
deriving DecidableEq, Repr

/-- Return value of `getPublicKey`. -/
structure KeyInfo where
  publicKey : Option String
  keyId : Option String
  isOrg : Bool
deriving DecidableEq, Repr

/-- `getPublicKey(repo, pat)`: try the repository public key; on a 404 try
the organization public key; on a second 404 throw. Any other status returns
the decoded body as a successful resolution. The `throw` is `Except.error`
with the thrown message. -/
def getPublicKey (repoResp orgResp : KeyFetchResp) : Except String KeyInfo :=
  if repoResp.status = 404 then
    if orgResp.status = 404 then
      .error "Neither repository nor organization public key found"
    else .ok ⟨orgResp.key, orgResp.keyId, true⟩
  else .ok ⟨repoResp.key, repoResp.keyId, false⟩

/-- The PUT request `setSecret` builds: target URL and JSON body fields.
`visibility` is `some "all"` exactly when the body spread adds the field. -/
structure SecretRequest where
  url : String
  encrypted_value : String
  key_id : Option String
  visibility : Option String
deriving DecidableEq, Repr

/-- `repo.split('/')[0]`, the organization segment. -/
def orgOf (repo : String) : String := (repo.splitOn "/").headD ""

/-- URL and body construction inside `setSecret`. -/
def buildSecretRequest (repo : String) (keyInfo : KeyInfo) (key encryptedValue : String) :
    SecretRequest :=
  { url :=
      if keyInfo.isOrg then
        "https://api.github.com/orgs/" ++ orgOf repo ++ "/actions/secrets/" ++ key
      else
        "https://api.github.com/repos/" ++ repo ++ "/actions/secrets/" ++ key,
    encrypted_value := encryptedValue,
    key_id := keyInfo.keyId,
    visibility := if keyInfo.isOrg then some "all" else none }

/-- A transport answer for the PUT: status, statusText and the body text. -/
structure PushFetchResp where
  status : Nat
  statusText : String
  body : String
deriving DecidableEq, Repr

/-- The object `setSecret` returns: `success` is `status === 201 || status === 204`. -/
structure SetSecretResult where
  status : Nat
  statusText : String
  success : Bool
  response : String
deriving DecidableEq, Repr

/-- `setSecret(key, value, repo, pat, keyInfo)`. `enc` is the result of
`encryptValue` (`Except.error` when libsodium throws), `transport` is the
`fetch` of the PUT (`Except.error` when the request itself fails with no
response). Either error propagates to the caller as a thrown exception. -/
def setSecret (repo : String) (keyInfo : KeyInfo)
    (transport : SecretRequest → Except String PushFetchResp)
    (enc : Except String String) (key : String) : Except String SetSecretResult :=
  match enc with
  | .error e => .error e
  | .ok encryptedValue =>
    match transport (buildSecretRequest repo keyInfo key encryptedValue) with
    | .error e => .error e
    | .ok r =>
      .ok { status := r.status, statusText := r.statusText,
            success := r.status == 201 || r.status == 204, response := r.body }

/-- One element of the `results` array of the POST loop. The successful-call
shape carries `status`/`statusText`/`response` and no `error` field; the
caught-exception shape carries only `error`. -/
structure ResultEntry where
  key : String
  success : Bool
  status : Option Nat
  statusText : Option String
  response : Option String
  error : Option String
deriving DecidableEq, Repr

def mkOkEntry (key : String) (r : SetSecretResult) : ResultEntry :=
  ⟨key, r.success, some r.status, some r.statusText, some r.response, none⟩

def mkErrEntry (key msg : String) : ResultEntry :=
  ⟨key, false, none, none, none, some msg⟩

/-- The three arrays the loop accumulates. -/
structure LoopOut where
  results : List ResultEntry
  failedSecrets : List String
  successSecrets : List String
deriving DecidableEq, Repr

/-- The `for (const [key, value] of Object.entries(secrets))` loop with its
per-iteration `try/catch`: `doSet` is `setSecret` applied to the run's fixed
`repo`/`pat`/`keyInfo`. -/
def processSecrets (doSet : String → String → Except String SetSecretResult) :
    List (String × String) → LoopOut
  | [] => ⟨[], [], []⟩
  | (key, value) :: rest =>
    let out := processSecrets doSet rest
    match doSet key value with
    | .ok r =>
      if r.success then
        ⟨mkOkEntry key r :: out.results, out.failedSecrets, key :: out.successSecrets⟩
      else
        ⟨mkOkEntry key r :: out.results, key :: out.failedSecrets, out.successSecrets⟩
    | .error e =>
      ⟨mkErrEntry key e :: out.results, key :: out.failedSecrets, out.successSecrets⟩

/-- `failedSecrets.length === 0`, the condition choosing the success response. -/
def overallSuccess (out : LoopOut) : Bool := out.failedSecrets.length == 0

/-- The `variables` array of the final JSON: succeeded keys on overall
success, otherwise the failed keys. -/
def reportVariables (out : LoopOut) : List String :=
  if overallSuccess out then out.successSecrets else out.failedSecrets

/-- HTTP status of the fail-fast repository-access error response. -/
def resourceAccessFailureStatus : Nat := 404

/-- HTTP status of the generic catch-all error response. -/
def genericFailureStatus : Nat := 500

/-- The JSON body and HTTP status of a `NextResponse.json` the handler
returns. `vars` is the source's `variables` field (`variables` is reserved
in Lean 4). -/
structure ApiResponse where
  success : Bool
  vars : List String
  httpStatus : Nat
deriving DecidableEq, Repr

/-- Which effects a run of the handler reached, in source order: whether
`getPublicKey` was called, whether `parseEnvContent` was called, and the keys
for which a `setSecret` call was attempted. -/
structure Trace where
  keyDiscoveryInvoked : Bool
  envParsed : Bool
  attemptedKeys : List String
deriving DecidableEq, Repr

/-- The `POST` handler after `parseFormData` validation: the access probe
(`GET /repos/{repo}` status `probeStatus`), the fail-fast 404 branch, key
discovery (throw caught by the outer handler as a 500), env parsing, the
per-key loop, and the final response choice. -/
def POST (probeStatus : Nat) (repoKeyResp orgKeyResp : KeyFetchResp)
    (doSet : KeyInfo → String → String → Except String SetSecretResult)
    (envText : String) : ApiResponse × Trace :=
  if probeStatus = 404 then
    (⟨false, ["Repository access error"], resourceAccessFailureStatus⟩, ⟨false, false, []⟩)
  else
    match getPublicKey repoKeyResp orgKeyResp with
    | .error e => (⟨false, [e], genericFailureStatus⟩, ⟨true, false, []⟩)
    | .ok keyInfo =>
      let secrets := parseEnvContent envText
      let out := processSecrets (doSet keyInfo) secrets
      (⟨overallSuccess out, reportVariables out, 200⟩, ⟨true, true, secrets.map Prod.fst⟩)

/-! Test vectors of the spec's section 8, checked against the embedding. -/

example : parseEnvContent "A=1\nB=2" = [("A", "1"), ("B", "2")] := by decide
example : parseEnvContent "A=1\nA=2" = [("A", "2")] := by decide
example : parseEnvContent "A=\"hello\"" = [("A", "hello")] := by decide
example : parseEnvContent "A=\"line1\nline2\"" = [("A", "line1\nline2")] := by decide
example : parseEnvContent "# comment\n\nA=1" = [("A", "1")] := by decide
example : parseEnvContent "A=\"oops" = [("A", "oops")] := by decide
example : parseEnvContent "" = [] := by decide

/-! Helper lemmas. -/

/-- A list ending in backslash-quote in particular ends in a quote. -/
lemma isSuffixOf_esc_quote {l : List Char}
    (h : [backslash, dquote].isSuffixOf l = true) : [dquote].isSuffixOf l = true := by
  unfold List.isSuffixOf at h ⊢
  simp at h ⊢
  exact List.IsPrefix.trans ⟨[backslash], rfl⟩ h

/-- A string ending in the two characters backslash-quote also ends in a quote. -/
lemma jsEndsWith_esc {s : String} (h : jsEndsWith s "\\\"" = true) :
    jsEndsWith s "\"" = true := by
  have h1 : "\\\"".data = [backslash, dquote] := by decide
  have h2 : "\"".data = [dquote] := by decide
  unfold jsEndsWith at h ⊢
  rw [h1] at h
  rw [h2]
  exact isSuffixOf_esc_quote h

lemma lookup_append_right {m : List (String × String)} {k v : String}
    (h : ∀ p ∈ m, (p.1 == k) = false) :
    List.lookup k (m ++ [(k, v)]) = some v := by
  induction m with
  | nil => simp [List.lookup]
  | cons p t ih =>
    obtain ⟨a, b⟩ := p
    have ha : (a == k) = false := h (a, b) (by simp)
    have hk : (k == a) = false := by
      simp only [beq_eq_false_iff_ne] at ha ⊢
      exact fun hkk => ha hkk.symm
    simp only [List.cons_append, List.lookup, hk]
    exact ih fun p hp => h p (by simp [hp])

lemma lookup_map_replace {m : List (String × String)} {k v : String}
    (h : m.any (fun p => p.1 == k) = true) :
    List.lookup k (m.map fun p => if p.1 == k then (p.1, v) else p) = some v := by
  induction m with
  | nil => simp at h
  | cons p t ih =>
    obtain ⟨a, b⟩ := p
    by_cases hak : a = k
    · subst hak
      rw [List.map_cons]
      have hhead : (if ((a, b).1 == a) = true then ((a, b).1, v) else (a, b)) = (a, v) := by
        simp
      rw [hhead, List.lookup_cons_self]
    · have hak2 : (a == k) = false := by simp [hak]
      have hk : (k == a) = false := by simp [Ne.symm hak]
      have ht : t.any (fun p => p.1 == k) = true := by
        simpa [List.any_cons, hak2] using h
      rw [List.map_cons]
      have hhead : (if ((a, b).1 == k) = true then ((a, b).1, v) else (a, b)) = (a, b) := by
        simp [hak2]
      rw [hhead, List.lookup_cons, hk]
      exact ih ht

/-- Reading a key back after a record write returns the written value. -/
lemma recordSet_lookup (m : List (String × String)) (k v : String) :
    List.lookup k (recordSet m k v) = some v := by
  unfold recordSet
  cases hany : m.any (fun p => p.1 == k) with
  | true =>
    rw [if_pos rfl]
    exact lookup_map_replace hany
  | false =>
    rw [if_neg (by simp)]
    exact lookup_append_right (by simpa [List.any_eq_false] using hany)

/-! C9. -/

/-- C9: if the same key appears on several accepted KEY=VALUE lines, the
parsed SecretMap binds it to the value of the latest occurrence: every commit
goes through `recordSet`, which overwrites the key's binding, and in
particular parsing "A=1\nA=2" yields A bound to "2". -/
theorem C9_duplicate_key_last_write_wins :
    (∀ m k v, List.lookup k (recordSet m k v) = some v) ∧
    parseEnvContent "A=1\nA=2" = [("A", "2")] :=
  ⟨fun m k v => recordSet_lookup m k v, by decide⟩

/-! C6. -/

/-- C6 fails on the code: on the line A="abc\" the value begins with a quote
and ends with backslash-quote, which the claim says does not count as a
closing quote, so the parser should enter multiline accumulation; instead the
check `!value.endsWith('"')` is already false (the value does end with a
quote character), the line is committed as a single-line value, and the quote
pair is stripped, binding A to the four characters abc-backslash. -/
theorem C6_counterexample :
    (parseLine initParseState "A=\"abc\\\"").inValue = false ∧
    parseEnvContent "A=\"abc\\\"" = [("A", "abc\\")] ∧
    ("abc\\" : String) ≠ "abc\\\"" := ⟨by decide, by decide, by decide⟩

/-- C6 amended: a KEY=VALUE line whose value begins with a double quote
enters multiline accumulation (with the leading quote stripped and the key
remembered) if and only if the value does not end with a double quote at
all; the backslash-escape exception is inert, since any value ending in
backslash-quote also ends in a quote. A quote-terminated value — escaped or
not — is committed immediately as a single-line value. -/
theorem C6_amended_multiline_entry (st : ParseState) (rawLine k v : String)
    (hin : st.inValue = false)
    (hskip : ((jsTrim rawLine).isEmpty || jsStartsWith (jsTrim rawLine) "#") = false)
    (hmatch : matchKeyValue (jsTrim rawLine) = some (k, v))
    (hq : jsStartsWith v "\"" = true) :
    parseLine st rawLine =
      if jsEndsWith v "\"" then
        { st with result := recordSet st.result k (stripQuotePair v),
                  currentKey := "", value := "" }
      else { st with currentKey := k, inValue := true, value := jsDrop v 1 } := by
  cases hE : jsEndsWith v "\""
  · have hesc : jsEndsWith v "\\\"" = false := by
      cases h2 : jsEndsWith v "\\\""
      · rfl
      · rw [jsEndsWith_esc h2] at hE
        exact absurd hE (by simp)
    simp [parseLine, hskip, hin, hmatch, hq, hE, hesc]
  · simp [parseLine, hskip, hin, hmatch, hq, hE]

theorem C6_amended_multiline_entry_witness :
    ((initParseState.inValue = false) ∧
      ((jsTrim "A=\"x").isEmpty || jsStartsWith (jsTrim "A=\"x") "#") = false ∧
      matchKeyValue (jsTrim "A=\"x") = some ("A", "\"x") ∧
      jsStartsWith "\"x" "\"" = true) ∧
    parseLine initParseState "A=\"x" =
      if jsEndsWith "\"x" "\"" then
        { initParseState with
            result := recordSet initParseState.result "A" (stripQuotePair "\"x"),
            currentKey := "", value := "" }
      else
        { initParseState with
            currentKey := "A", inValue := true, value := jsDrop "\"x" 1 } :=
  ⟨⟨by decide, by decide, by decide, by decide⟩,
    C6_amended_multiline_entry initParseState "A=\"x" "A" "\"x"
      (by decide) (by decide) (by decide) (by decide)⟩

/-! C7. -/

/-- C7 fails on the code: while accumulating a multiline value the loop first
trims each line and still skips blank lines and lines starting with # (the
skip check precedes the state dispatch), so the raw line is not appended.
For the input A="x / #c / z" (with newlines) the committed value is
"x\nz", not the claimed "x\n#c\nz". -/
theorem C7_counterexample :
    parseEnvContent "A=\"x\n#c\nz\"" = [("A", "x\nz")] ∧
    [(("A" : String), ("x\nz" : String))] ≠ [("A", "x\n#c\nz")] :=
  ⟨by decide, by decide⟩

/-- C7 amended: in the multiline-accumulation state a blank or #-starting
(after trimming) line is skipped with no state change; any other line is
appended in trimmed form with a newline separator; a trimmed line ending
with an unescaped double quote has that quote stripped, commits the pair
(key, buffer) into the record, and returns the parser to scanning. -/
theorem C7_amended_accumulation (st : ParseState) (rawLine : String)
    (hin : st.inValue = true) :
    (((jsTrim rawLine).isEmpty || jsStartsWith (jsTrim rawLine) "#") = true →
      parseLine st rawLine = st) ∧
    (((jsTrim rawLine).isEmpty || jsStartsWith (jsTrim rawLine) "#") = false →
      (jsEndsWith (jsTrim rawLine) "\"" && !jsEndsWith (jsTrim rawLine) "\\\"") = true →
      parseLine st rawLine =
        { st with result := recordSet st.result st.currentKey
                    (st.value ++ "\n" ++ jsDropLast (jsTrim rawLine)),
                  currentKey := "", inValue := false, value := "" }) ∧
    (((jsTrim rawLine).isEmpty || jsStartsWith (jsTrim rawLine) "#") = false →
      (jsEndsWith (jsTrim rawLine) "\"" && !jsEndsWith (jsTrim rawLine) "\\\"") = false →
      parseLine st rawLine = { st with value := st.value ++ "\n" ++ jsTrim rawLine }) := by
  refine ⟨fun hskip => ?_, fun hskip hend => ?_, fun hskip hend => ?_⟩
  · simp [parseLine, hskip]
  · simp [parseLine, hskip, hin, hend]
  · simp [parseLine, hskip, hin, hend]

theorem C7_amended_accumulation_witness :
    parseLine ⟨[], "A", true, "x"⟩ "z\"" =
      { (⟨[], "A", true, "x"⟩ : ParseState) with
          result := recordSet [] "A" ("x" ++ "\n" ++ jsDropLast (jsTrim "z\"")),
          currentKey := "", inValue := false, value := "" } :=
  (C7_amended_accumulation ⟨[], "A", true, "x"⟩ "z\"" (by decide)).2.1
    (by decide) (by decide)

/-! Loop characterization and key-uniqueness of the parsed record. -/

/-- Whether a per-key outcome counts as a success in the loop: a returned
result with `success`, never a thrown error. -/
def isOkOutcome (r : Except String SetSecretResult) : Bool :=
  match r with
  | .ok s => s.success
  | .error _ => false

lemma processSecrets_success_eq (doSet : String → String → Except String SetSecretResult)
    (l : List (String × String)) :
    (processSecrets doSet l).successSecrets
      = (l.filter fun p => isOkOutcome (doSet p.1 p.2)).map Prod.fst := by
  induction l with
  | nil => rfl
  | cons p t ih =>
    obtain ⟨key, value⟩ := p
    cases h : doSet key value with
    | ok r => cases hs : r.success <;> simp [processSecrets, h, isOkOutcome, hs, ih]
    | error e => simp [processSecrets, h, isOkOutcome, ih]

lemma processSecrets_failed_eq (doSet : String → String → Except String SetSecretResult)
    (l : List (String × String)) :
    (processSecrets doSet l).failedSecrets
      = (l.filter fun p => !isOkOutcome (doSet p.1 p.2)).map Prod.fst := by
  induction l with
  | nil => rfl
  | cons p t ih =>
    obtain ⟨key, value⟩ := p
    cases h : doSet key value with
    | ok r => cases hs : r.success <;> simp [processSecrets, h, isOkOutcome, hs, ih]
    | error e => simp [processSecrets, h, isOkOutcome, ih]

lemma length_filter_split {α : Type} (p : α → Bool) (l : List α) :
    (l.filter p).length + (l.filter fun a => !p a).length = l.length := by
  induction l with
  | nil => rfl
  | cons a t ih => cases h : p a <;> simp [List.filter_cons, h] <;> omega

lemma nodup_fst_val_eq {l : List (String × String)} (hnd : (l.map Prod.fst).Nodup)
    {k v1 v2 : String} (h1 : (k, v1) ∈ l) (h2 : (k, v2) ∈ l) : v1 = v2 := by
  induction l with
  | nil => cases h1
  | cons p t ih =>
    obtain ⟨a, b⟩ := p
    rw [List.map_cons, List.nodup_cons] at hnd
    cases List.mem_cons.mp h1 with
    | inl he1 =>
      obtain ⟨hk1, hv1⟩ : k = a ∧ v1 = b := by simpa using he1
      cases List.mem_cons.mp h2 with
      | inl he2 =>
        obtain ⟨hk2, hv2⟩ : k = a ∧ v2 = b := by simpa using he2
        rw [hv1, hv2]
      | inr ht2 =>
        subst hk1
        exact absurd (List.mem_map_of_mem Prod.fst ht2) hnd.1
    | inr ht1 =>
      cases List.mem_cons.mp h2 with
      | inl he2 =>
        obtain ⟨hk2, hv2⟩ : k = a ∧ v2 = b := by simpa using he2
        subst hk2
        exact absurd (List.mem_map_of_mem Prod.fst ht1) hnd.1
      | inr ht2 => exact ih hnd.2 ht1 ht2

/-- A record write preserves key-uniqueness. -/
lemma recordSet_keys_nodup {m : List (String × String)}
    (h : (m.map Prod.fst).Nodup) (k v : String) :
    ((recordSet m k v).map Prod.fst).Nodup := by
  unfold recordSet
  cases hany : m.any (fun p => p.1 == k) with
  | true =>
    rw [if_pos rfl]
    have : (m.map fun p => if p.1 == k then (p.1, v) else p).map Prod.fst
        = m.map Prod.fst := by
      rw [List.map_map]
      apply List.map_congr_left
      intro p _
      by_cases hp : (p.1 == k) = true <;> simp [Function.comp, hp]
    rw [this]
    exact h
  | false =>
    rw [if_neg (by simp)]
    rw [List.map_append]
    rw [List.nodup_append]
    refine ⟨h, List.nodup_singleton _, ?_⟩
    intro a ha hb
    have ha' : a ∈ m.map Prod.fst := ha
    obtain ⟨p, hp, hpa⟩ := List.mem_map.mp ha'
    have hk : a = k := by simpa using hb
    have := List.any_eq_false.mp hany p hp
    apply this
    rw [hpa, hk]
    simp

/-- Every branch of the loop body preserves key-uniqueness of the record. -/
lemma parseLine_keys_nodup (st : ParseState) (line : String)
    (h : (st.result.map Prod.fst).Nodup) :
    (((parseLine st line).result).map Prod.fst).Nodup := by
  simp only [parseLine]
  repeat' split
  all_goals first
    | exact h
    | exact recordSet_keys_nodup h _ _

/-- The parsed SecretMap has unique keys. -/
lemma parseEnvContent_keys_nodup (s : String) :
    ((parseEnvContent s).map Prod.fst).Nodup := by
  have hfold : ∀ (lines : List String) (st : ParseState),
      (st.result.map Prod.fst).Nodup →
      (((lines.foldl parseLine st).result).map Prod.fst).Nodup := by
    intro lines
    induction lines with
    | nil => intro st h; exact h
    | cons l t ih => intro st h; exact ih _ (parseLine_keys_nodup _ _ h)
  have hbase := hfold (splitLines s) initParseState (by simp [initParseState])
  simp only [parseEnvContent]
  split
  · exact recordSet_keys_nodup hbase _ _
  · exact hbase

/-- The report invariant for the loop under key-uniqueness of the map. -/
lemma report_invariant_of_nodup (doSet : String → String → Except String SetSecretResult)
    (secrets : List (String × String)) (hnd : (secrets.map Prod.fst).Nodup) :
    (∀ k, ¬ (k ∈ (processSecrets doSet secrets).successSecrets ∧
             k ∈ (processSecrets doSet secrets).failedSecrets)) ∧
    (∀ k, (k ∈ (processSecrets doSet secrets).successSecrets ∨
           k ∈ (processSecrets doSet secrets).failedSecrets) ↔
          k ∈ secrets.map Prod.fst) ∧
    ((processSecrets doSet secrets).successSecrets.length +
      (processSecrets doSet secrets).failedSecrets.length = secrets.length) ∧
    (overallSuccess (processSecrets doSet secrets) = true ↔
      (processSecrets doSet secrets).failedSecrets = []) := by
  rw [processSecrets_success_eq, processSecrets_failed_eq]
  refine ⟨?_, ?_, ?_, ?_⟩
  · rintro k ⟨hs, hf⟩
    obtain ⟨⟨k1, w1⟩, hm1, hk1⟩ := List.mem_map.mp hs
    obtain ⟨⟨k2, w2⟩, hm2, hk2⟩ := List.mem_map.mp hf
    simp only at hk1 hk2
    subst hk1
    subst hk2
    obtain ⟨hmem1, hp1⟩ := List.mem_filter.mp hm1
    obtain ⟨hmem2, hp2⟩ := List.mem_filter.mp hm2
    have hw : w1 = w2 := nodup_fst_val_eq hnd hmem1 hmem2
    subst hw
    simp only at hp1 hp2
    rw [hp1] at hp2
    simp at hp2
  · intro k
    constructor
    · rintro (hs | hf)
      · obtain ⟨x, hm, hk⟩ := List.mem_map.mp hs
        exact hk ▸ List.mem_map_of_mem Prod.fst (List.mem_of_mem_filter hm)
      · obtain ⟨x, hm, hk⟩ := List.mem_map.mp hf
        exact hk ▸ List.mem_map_of_mem Prod.fst (List.mem_of_mem_filter hm)
    · intro hk
      obtain ⟨⟨a, b⟩, hm, ha⟩ := List.mem_map.mp hk
      simp only at ha
      subst ha
      cases hp : isOkOutcome (doSet a b) with
      | true =>
        exact Or.inl (List.mem_map_of_mem Prod.fst
          (List.mem_filter.mpr ⟨hm, by simpa using hp⟩))
      | false =>
        exact Or.inr (List.mem_map_of_mem Prod.fst
          (List.mem_filter.mpr ⟨hm, by simpa using hp⟩))
  · rw [List.length_map, List.length_map]
    exact length_filter_split _ secrets
  · rw [← processSecrets_failed_eq]
    simp [overallSuccess, List.length_eq_zero]

/-! C1. -/

/-- C1: for every run reaching the per-key loop (any outcome oracle `doSet`
for the fixed repo, pat and key info, and the SecretMap parsed from any env
text), the report satisfies: succeeded and failed keys are disjoint, a key is
succeeded-or-failed exactly when it is a key of the parsed SecretMap, their
counts add up to the SecretMap's size, and the overall success flag holds iff
no key failed. -/
theorem C1_sync_report_invariant
    (doSet : String → String → Except String SetSecretResult) (envText : String) :
    (∀ k, ¬ (k ∈ (processSecrets doSet (parseEnvContent envText)).successSecrets ∧
             k ∈ (processSecrets doSet (parseEnvContent envText)).failedSecrets)) ∧
    (∀ k, (k ∈ (processSecrets doSet (parseEnvContent envText)).successSecrets ∨
           k ∈ (processSecrets doSet (parseEnvContent envText)).failedSecrets) ↔
          k ∈ (parseEnvContent envText).map Prod.fst) ∧
    ((processSecrets doSet (parseEnvContent envText)).successSecrets.length +
      (processSecrets doSet (parseEnvContent envText)).failedSecrets.length
        = (parseEnvContent envText).length) ∧
    (overallSuccess (processSecrets doSet (parseEnvContent envText)) = true ↔
      (processSecrets doSet (parseEnvContent envText)).failedSecrets = []) :=
  report_invariant_of_nodup doSet (parseEnvContent envText)
    (parseEnvContent_keys_nodup envText)

/-! C2. -/

/-- The loop processes independent items: its three arrays distribute over
list concatenation. -/
lemma processSecrets_append (doSet : String → String → Except String SetSecretResult)
    (l1 l2 : List (String × String)) :
    processSecrets doSet (l1 ++ l2) =
      ⟨(processSecrets doSet l1).results ++ (processSecrets doSet l2).results,
       (processSecrets doSet l1).failedSecrets ++ (processSecrets doSet l2).failedSecrets,
       (processSecrets doSet l1).successSecrets ++
         (processSecrets doSet l2).successSecrets⟩ := by
  induction l1 with
  | nil => simp [processSecrets]
  | cons p t ih =>
    obtain ⟨key, value⟩ := p
    cases h : doSet key value with
    | ok r => cases hs : r.success <;> simp [processSecrets, h, hs, ih]
    | error e => simp [processSecrets, h, ih]

/-- C2: a per-key failure is caught locally: a key whose outcome is a thrown
error (encryption or transport) or a non-accepted push lands in failedKeys
while every other key's processing is unaffected
(first conjunct, for an arbitrary position in the map); and in the concrete
three-key scenario in which the second key's push answers with a non-2xx
status while the first and third answer 201, the report is
succeededKeys = [first, third], failedKeys = [second], overallSuccess =
false. -/
theorem C2_partial_failure_isolation
    (doSet : String → String → Except String SetSecretResult)
    (repo : String) (info : KeyInfo)
    (k1 k2 k3 v1 v2 v3 c1 c2 c3 : String) (r1 r2 r3 : PushFetchResp)
    (hne12 : k1 ≠ k2) (hne13 : k1 ≠ k3) (hne23 : k2 ≠ k3)
    (h1 : doSet k1 v1 = setSecret repo info (fun _ => .ok r1) (.ok c1) k1)
    (hs1 : r1.status = 201)
    (h2 : doSet k2 v2 = setSecret repo info (fun _ => .ok r2) (.ok c2) k2)
    (hs2 : ¬ (200 ≤ r2.status ∧ r2.status < 300))
    (h3 : doSet k3 v3 = setSecret repo info (fun _ => .ok r3) (.ok c3) k3)
    (hs3 : r3.status = 201) :
    (∀ (pre rest : List (String × String)) (key value : String),
        isOkOutcome (doSet key value) = false →
        (processSecrets doSet (pre ++ (key, value) :: rest)).failedSecrets
          = (processSecrets doSet pre).failedSecrets ++
            key :: (processSecrets doSet rest).failedSecrets ∧
        (processSecrets doSet (pre ++ (key, value) :: rest)).successSecrets
          = (processSecrets doSet pre).successSecrets ++
            (processSecrets doSet rest).successSecrets) ∧
    (processSecrets doSet [(k1, v1), (k2, v2), (k3, v3)]).successSecrets = [k1, k3] ∧
    (processSecrets doSet [(k1, v1), (k2, v2), (k3, v3)]).failedSecrets = [k2] ∧
    overallSuccess (processSecrets doSet [(k1, v1), (k2, v2), (k3, v3)]) = false := by
  have h201 : r2.status ≠ 201 := by omega
  have h204 : r2.status ≠ 204 := by omega
  have o1 : doSet k1 v1 = .ok ⟨201, r1.statusText, true, r1.body⟩ := by
    rw [h1]; simp [setSecret, hs1]
  have o2 : doSet k2 v2 = .ok ⟨r2.status, r2.statusText, false, r2.body⟩ := by
    rw [h2]
    simp only [setSecret]
    have e201 : (r2.status == 201) = false := by simpa using h201
    have e204 : (r2.status == 204) = false := by simpa using h204
    rw [e201, e204]
    rfl
  have o3 : doSet k3 v3 = .ok ⟨201, r3.statusText, true, r3.body⟩ := by
    rw [h3]; simp [setSecret, hs3]
  refine ⟨?_, ?_, ?_, ?_⟩
  · intro pre rest key value hfail
    rw [processSecrets_append]
    cases h : doSet key value with
    | ok r =>
      have hs : r.success = false := by simpa [isOkOutcome, h] using hfail
      constructor <;> simp [processSecrets, h, hs]
    | error e => constructor <;> simp [processSecrets, h]
  · simp [processSecrets, o1, o2, o3]
  · simp [processSecrets, o1, o2, o3]
  · simp [processSecrets, o1, o2, o3, overallSuccess]

theorem C2_partial_failure_isolation_witness :
    ((("K1" : String) ≠ "K2") ∧ (("K1" : String) ≠ "K3") ∧ (("K2" : String) ≠ "K3") ∧
      (fun (k _v : String) =>
          setSecret "org/repo" ⟨some "pk", some "kid", false⟩
            (fun _ => .ok (if k == "K2" then ⟨500, "Internal Server Error", "err"⟩
                           else ⟨201, "Created", "ok"⟩))
            (.ok "cipher") k) "K2" "v2"
        = setSecret "org/repo" ⟨some "pk", some "kid", false⟩
            (fun _ => .ok ⟨500, "Internal Server Error", "err"⟩) (.ok "cipher") "K2" ∧
      ¬ (200 ≤ (⟨500, "Internal Server Error", "err"⟩ : PushFetchResp).status ∧
          (⟨500, "Internal Server Error", "err"⟩ : PushFetchResp).status < 300)) ∧
    (processSecrets
        (fun (k _v : String) =>
          setSecret "org/repo" ⟨some "pk", some "kid", false⟩
            (fun _ => .ok (if k == "K2" then ⟨500, "Internal Server Error", "err"⟩
                           else ⟨201, "Created", "ok"⟩))
            (.ok "cipher") k)
        [("K1", "v1"), ("K2", "v2"), ("K3", "v3")]).successSecrets = ["K1", "K3"] ∧
    (processSecrets
        (fun (k _v : String) =>
          setSecret "org/repo" ⟨some "pk", some "kid", false⟩
            (fun _ => .ok (if k == "K2" then ⟨500, "Internal Server Error", "err"⟩
                           else ⟨201, "Created", "ok"⟩))
            (.ok "cipher") k)
        [("K1", "v1"), ("K2", "v2"), ("K3", "v3")]).failedSecrets = ["K2"] ∧
    overallSuccess (processSecrets
        (fun (k _v : String) =>
          setSecret "org/repo" ⟨some "pk", some "kid", false⟩
            (fun _ => .ok (if k == "K2" then ⟨500, "Internal Server Error", "err"⟩
                           else ⟨201, "Created", "ok"⟩))
            (.ok "cipher") k)
        [("K1", "v1"), ("K2", "v2"), ("K3", "v3")]) = false :=
  ⟨⟨by decide, by decide, by decide, by rfl, by decide⟩,
    ((C2_partial_failure_isolation
        (fun (k _v : String) =>
          setSecret "org/repo" ⟨some "pk", some "kid", false⟩
            (fun _ => .ok (if k == "K2" then ⟨500, "Internal Server Error", "err"⟩
                           else ⟨201, "Created", "ok"⟩))
            (.ok "cipher") k)
        "org/repo" ⟨some "pk", some "kid", false⟩
        "K1" "K2" "K3" "v1" "v2" "v3" "cipher" "cipher" "cipher"
        ⟨201, "Created", "ok"⟩ ⟨500, "Internal Server Error", "err"⟩
        ⟨201, "Created", "ok"⟩
        (by decide) (by decide) (by decide)
        (by rfl) (by decide) (by rfl) (by decide) (by rfl) (by decide)).2 :
      _ ∧ _ ∧ _)⟩

/-! C8. -/

/-- C8 fails on the code: when the transport produces no response, `setSecret`
throws and the loop's catch records `{key, success: false, error: message}` —
an entry with NO status field at all (synthetic or otherwise) and with the
message in an `error` field, not in the response-body field. -/
theorem C8_counterexample :
    setSecret "org/repo" ⟨some "pk", some "kid", false⟩
        (fun _ => .error "network down") (.ok "cipher") "K"
      = .error "network down" ∧
    (processSecrets
        (fun _ _ => setSecret "org/repo" ⟨some "pk", some "kid", false⟩
          (fun _ => .error "network down") (.ok "cipher") "K")
        [("K", "v")]).results
      = [{ key := "K", success := false, status := none, statusText := none,
           response := none, error := some "network down" }] ∧
    (mkErrEntry "K" "network down").status = none ∧
    (mkErrEntry "K" "network down").response = none :=
  ⟨by rfl, by rfl, by rfl, by rfl⟩

/-- C8 amended: a transport-level failure (the PUT `fetch` itself fails with
no response) propagates out of `setSecret` as a thrown error; the loop's
catch reports the key with `success = false` and the underlying error message
in the entry's `error` field, while the status, statusText and response-body
fields are all absent — no synthetic status code is attached. -/
theorem C8_amended_transport_failure_entry
    (repo : String) (info : KeyInfo)
    (transport : SecretRequest → Except String PushFetchResp)
    (doSet : String → String → Except String SetSecretResult)
    (c key value err : String) (rest : List (String × String))
    (htr : transport (buildSecretRequest repo info key c) = .error err)
    (hdo : doSet key value = setSecret repo info transport (.ok c) key) :
    doSet key value = .error err ∧
    (processSecrets doSet ((key, value) :: rest)).results
      = mkErrEntry key err :: (processSecrets doSet rest).results ∧
    (mkErrEntry key err).success = false ∧
    (mkErrEntry key err).status = none ∧
    (mkErrEntry key err).response = none ∧
    (mkErrEntry key err).error = some err := by
  have herr : doSet key value = .error err := by
    rw [hdo]
    simp [setSecret, htr]
  exact ⟨herr, by simp [processSecrets, herr], rfl, rfl, rfl, rfl⟩

theorem C8_amended_transport_failure_entry_witness :
    (((fun _ => .error "network down" :
          SecretRequest → Except String PushFetchResp)
        (buildSecretRequest "org/repo" ⟨some "pk", some "kid", false⟩ "K" "cipher")
        = .error "network down") ∧
      ((fun (_k _v : String) =>
          setSecret "org/repo" ⟨some "pk", some "kid", false⟩
            (fun _ => .error "network down") (.ok "cipher") "K") "K" "v"
        = setSecret "org/repo" ⟨some "pk", some "kid", false⟩
            (fun _ => .error "network down") (.ok "cipher") "K")) ∧
    ((fun (_k _v : String) =>
        setSecret "org/repo" ⟨some "pk", some "kid", false⟩
          (fun _ => .error "network down") (.ok "cipher") "K") "K" "v"
      = .error "network down" ∧
    (processSecrets
        (fun (_k _v : String) =>
          setSecret "org/repo" ⟨some "pk", some "kid", false⟩
            (fun _ => .error "network down") (.ok "cipher") "K")
        [("K", "v")]).results
      = mkErrEntry "K" "network down" ::
          (processSecrets
            (fun (_k _v : String) =>
              setSecret "org/repo" ⟨some "pk", some "kid", false⟩
                (fun _ => .error "network down") (.ok "cipher") "K") []).results ∧
    (mkErrEntry "K" "network down").success = false ∧
    (mkErrEntry "K" "network down").status = none ∧
    (mkErrEntry "K" "network down").response = none ∧
    (mkErrEntry "K" "network down").error = some "network down") :=
  ⟨⟨by rfl, by rfl⟩,
    C8_amended_transport_failure_entry "org/repo" ⟨some "pk", some "kid", false⟩
      (fun _ => .error "network down")
      (fun (_k _v : String) =>
        setSecret "org/repo" ⟨some "pk", some "kid", false⟩
          (fun _ => .error "network down") (.ok "cipher") "K")
      "cipher" "K" "v" "network down" [] (by rfl) (by rfl)⟩

/-! C4. -/

/-- C4: when the repository-scoped key lookup answers 404 and the
organization-scoped lookup succeeds, `getPublicKey` resolves the key with
`isOrg = true`, and every push built under that key info targets the
organization secrets endpoint and carries the visibility field set to
"all". -/
theorem C4_org_scope_fallback (repoResp orgResp : KeyFetchResp)
    (h404 : repoResp.status = 404) (hok : orgResp.status = 200) :
    getPublicKey repoResp orgResp = .ok ⟨orgResp.key, orgResp.keyId, true⟩ ∧
    ∀ repo key encVal,
      (buildSecretRequest repo ⟨orgResp.key, orgResp.keyId, true⟩ key encVal).url
        = "https://api.github.com/orgs/" ++ orgOf repo ++ "/actions/secrets/" ++ key ∧
      (buildSecretRequest repo ⟨orgResp.key, orgResp.keyId, true⟩ key encVal).visibility
        = some "all" := by
  constructor
  · simp [getPublicKey, h404, hok]
  · intro repo key encVal
    exact ⟨rfl, rfl⟩

theorem C4_org_scope_fallback_witness :
    ((⟨404, none, none⟩ : KeyFetchResp).status = 404 ∧
      (⟨200, some "orgkey", some "orgid"⟩ : KeyFetchResp).status = 200) ∧
    (getPublicKey ⟨404, none, none⟩ ⟨200, some "orgkey", some "orgid"⟩
        = .ok ⟨some "orgkey", some "orgid", true⟩ ∧
    ∀ repo key encVal,
      (buildSecretRequest repo ⟨some "orgkey", some "orgid", true⟩ key encVal).url
        = "https://api.github.com/orgs/" ++ orgOf repo ++ "/actions/secrets/" ++ key ∧
      (buildSecretRequest repo ⟨some "orgkey", some "orgid", true⟩ key encVal).visibility
        = some "all") :=
  ⟨⟨rfl, rfl⟩,
    C4_org_scope_fallback ⟨404, none, none⟩ ⟨200, some "orgkey", some "orgid"⟩ rfl rfl⟩

/-! C5. -/

/-- C5 fails on the code: `getPublicKey` special-cases only status 404. A 500
(or any other non-404, non-success) answer at the repository-scoped lookup is
not surfaced as an error carrying the transport status — it is returned as a
successful key resolution built from the error body. -/
theorem C5_counterexample :
    getPublicKey ⟨500, some "k", some "i"⟩ ⟨200, some "k2", some "i2"⟩
      = .ok ⟨some "k", some "i", false⟩ ∧
    (getPublicKey ⟨500, some "k", some "i"⟩ ⟨200, some "k2", some "i2"⟩).isOk = true :=
  ⟨by rfl, by rfl⟩

/-- C5 amended: key discovery branches only on status 404. Any response whose
status is not 404 — success or failure alike — is treated as a successful key
resolution whose fields come from the decoded body; the only discovery error
the code produces is the both-lookups-404 "Neither repository nor organization
public key found" throw. -/
theorem C5_amended_only_404_detected (repoResp orgResp : KeyFetchResp) :
    (repoResp.status ≠ 404 →
      getPublicKey repoResp orgResp = .ok ⟨repoResp.key, repoResp.keyId, false⟩) ∧
    (repoResp.status = 404 → orgResp.status ≠ 404 →
      getPublicKey repoResp orgResp = .ok ⟨orgResp.key, orgResp.keyId, true⟩) ∧
    (repoResp.status = 404 → orgResp.status = 404 →
      getPublicKey repoResp orgResp
        = .error "Neither repository nor organization public key found") := by
  refine ⟨fun h1 => ?_, fun h1 h2 => ?_, fun h1 h2 => ?_⟩
  · simp [getPublicKey, h1]
  · simp [getPublicKey, h1, h2]
  · simp [getPublicKey, h1, h2]

theorem C5_amended_only_404_detected_witness :
    getPublicKey ⟨500, some "k", some "i"⟩ ⟨200, some "k2", some "i2"⟩
      = .ok ⟨some "k", some "i", false⟩ ∧
    getPublicKey ⟨404, none, none⟩ ⟨403, some "k2", some "i2"⟩
      = .ok ⟨some "k2", some "i2", true⟩ ∧
    getPublicKey ⟨404, none, none⟩ ⟨404, none, none⟩
      = .error "Neither repository nor organization public key found" :=
  ⟨(C5_amended_only_404_detected ⟨500, some "k", some "i"⟩
      ⟨200, some "k2", some "i2"⟩).1 (by decide),
   (C5_amended_only_404_detected ⟨404, none, none⟩
      ⟨403, some "k2", some "i2"⟩).2.1 rfl (by decide),
   (C5_amended_only_404_detected ⟨404, none, none⟩ ⟨404, none, none⟩).2.2 rfl rfl⟩

/-! C3. -/

/-- C3: when the access probe answers 404 the handler returns the
repository-access error immediately — success false, the fixed
"Repository access error" reason, HTTP status 404 (distinct from the
generic 500 failure status) — and the trace shows that key discovery was
never invoked, the env text was never parsed, and no per-key operation was
attempted. -/
theorem C3_access_probe_fail_fast (probeStatus : Nat)
    (repoKeyResp orgKeyResp : KeyFetchResp)
    (doSet : KeyInfo → String → String → Except String SetSecretResult)
    (envText : String) (h : probeStatus = 404) :
    POST probeStatus repoKeyResp orgKeyResp doSet envText
      = (⟨false, ["Repository access error"], resourceAccessFailureStatus⟩,
         ⟨false, false, []⟩) ∧
    resourceAccessFailureStatus ≠ genericFailureStatus := by
  subst h
  exact ⟨by simp [POST], by decide⟩

theorem C3_access_probe_fail_fast_witness :
    ((404 : Nat) = 404) ∧
    (POST 404 ⟨200, some "pk", some "kid"⟩ ⟨200, none, none⟩
        (fun _ _ _ => .error "unused") "A=1"
      = (⟨false, ["Repository access error"], resourceAccessFailureStatus⟩,
         ⟨false, false, []⟩) ∧
    resourceAccessFailureStatus ≠ genericFailureStatus) :=
  ⟨rfl, C3_access_probe_fail_fast 404 ⟨200, some "pk", some "kid"⟩ ⟨200, none, none⟩
    (fun _ _ _ => .error "unused") "A=1" rfl⟩

/-! C10. -/

/-- C10: when the probe does not answer 404, key discovery succeeds, and the
env text parses to an empty SecretMap, the run performs no per-key operation
and returns overall success with an empty variables list. -/
theorem C10_empty_secret_map_success (probeStatus : Nat)
    (repoKeyResp orgKeyResp : KeyFetchResp)
    (doSet : KeyInfo → String → String → Except String SetSecretResult)
    (envText : String) (info : KeyInfo)
    (hprobe : probeStatus ≠ 404)
    (hkey : getPublicKey repoKeyResp orgKeyResp = .ok info)
    (hempty : parseEnvContent envText = []) :
    POST probeStatus repoKeyResp orgKeyResp doSet envText
      = (⟨true, [], 200⟩, ⟨true, true, []⟩) := by
  simp [POST, hprobe, hkey, hempty, processSecrets, overallSuccess, reportVariables]

theorem C10_empty_secret_map_success_witness :
    ((200 : Nat) ≠ 404 ∧
      getPublicKey ⟨200, some "pk", some "kid"⟩ ⟨200, none, none⟩
        = .ok ⟨some "pk", some "kid", false⟩ ∧
      parseEnvContent "# only a comment\n" = []) ∧
    POST 200 ⟨200, some "pk", some "kid"⟩ ⟨200, none, none⟩
        (fun _ _ _ => .error "never reached") "# only a comment\n"
      = (⟨true, [], 200⟩, ⟨true, true, []⟩) :=
  ⟨⟨by decide, by rfl, by decide⟩,
    C10_empty_secret_map_success 200 ⟨200, some "pk", some "kid"⟩ ⟨200, none, none⟩
      (fun _ _ _ => .error "never reached") "# only a comment\n"
      ⟨some "pk", some "kid", false⟩ (by decide) (by rfl) (by decide)⟩

end GithubSecrets
